import Mathlib

/-!
Verification development for the `clioverdrivesearch` repository
(`src/library-search.js`).

The JavaScript source is shallowly embedded as executable Lean functions.
External effects (the paginated tenant-index endpoint, the per-tenant media
search endpoint, the filesystem holding the cache and fallback datasets, and
the `rate-limiter-flexible` limiter) are supplied as explicit environment
values; the control flow of the embedded functions follows the source line by
line.  `async`/`await` sequencing is a single logical thread in the source, so
it is embedded as ordinary sequential evaluation; `setTimeout` sleeps are
recorded in an explicit log rather than modelled as real time.
-/

namespace LibSearch

/-- JS `x || y` for an optional string `x`: `undefined`, `null` and the empty
string are falsy, so they yield `y`. -/
def jsOrStr (x : Option String) (y : String) : String :=
  match x with
  | some s => if s = "" then y else s
  | none => y

/-- JS `parseInt` on the strings this program feeds it: leading whitespace is
skipped and a decimal digit prefix is read; `none` models `NaN` (no digits). -/
def jsParseInt (s : String) : Option Nat :=
  let ds := (s.toList.dropWhile Char.isWhitespace).takeWhile Char.isDigit
  if ds = [] then none
  else some (ds.foldl (fun n c => n * 10 + (c.toNat - 48)) 0)

/-- JS `s.trim()`: strip leading and trailing whitespace.  Implemented over
the character list (the whitespace classes JS recognises beyond ASCII do not
occur in the modelled inputs). -/
def trimChars (s : String) : String :=
  String.mk
    (((s.toList.dropWhile Char.isWhitespace).reverse.dropWhile Char.isWhitespace).reverse)

/-- JS `s.replace(pat, '')` with a string pattern removes only the first
occurrence of `pat` (used for `url.replace('.overdrive.com', '')`). -/
def replaceFirst (s pat : String) : String :=
  match s.splitOn pat with
  | [] => s
  | [x] => x
  | x :: rest => x ++ String.intercalate pat rest

/-- One raw item of the paginated tenant index (`data.items` entries in
`fetchAllLibrariesFromAPI`).  `none` models an absent (`undefined`) field. -/
structure RawLibItem where
  preferredKey : Option String
  id : Option String
  name : Option String
  isConsortium : Bool
  status : Option String
deriving DecidableEq

/-- One normalized tenant record as written to `libraries.api.cache.json`. -/
structure TenantRecord where
  slug : String
  name : String
  isConsortium : Bool
  status : Option String
deriving DecidableEq

/-- `item => ({ slug: (item.preferredKey || item.id || '').trim(), name:
item.name || 'Unknown Library', isConsortium: !!item.isConsortium, status:
item.status })` (library-search.js lines 84-89). -/
def normalizeItem (it : RawLibItem) : TenantRecord :=
  { slug := trimChars (jsOrStr it.preferredKey (jsOrStr it.id ""))
    name := jsOrStr it.name "Unknown Library"
    isConsortium := it.isConsortium
    status := it.status }

/-- The normalization pipeline of lines 83-90: map each raw item, then
`filter(item => item.slug && item.status === 'Live')`. -/
def normalizeItems (items : List RawLibItem) : List TenantRecord :=
  (items.map normalizeItem).filter fun r => r.slug != "" && r.status == some "Live"

/-- Outcome of one page request of the tenant index.  `err` covers every
failure the `catch` of lines 75-79 absorbs identically: `fetch` rejection,
the `!res.ok` throw of line 57, and a `res.json()` parse failure. -/
inductive PageResult where
  | ok (items : List RawLibItem) (next : Option Nat)
  | err
deriving DecidableEq

/-- The `while (true)` pagination loop of lines 33-80, as a function of the
page environment.  The fuel argument bounds loop iterations (the source loop
terminates only when the server's `next` pointers do not cycle); `none` is
returned exactly when fuel runs out, never by the source's own exits.  The
rate-limiter `consume` of line 35 is not modelled here: its rejection branch
waits and retries the same iteration (lines 36-40), so it delays but never
alters which pages are fetched.  A 429 likewise only sleeps and retries the
same page (lines 49-54).  The result carries the accumulated raw items and
the number of page requests issued. -/
def fetchPagesLoop (env : Nat → PageResult) :
    Nat → Nat → List RawLibItem → Nat → Option (List RawLibItem × Nat)
  | 0, _, _, _ => none
  | fuel + 1, currentPage, acc, calls =>
    match env currentPage with
    | .err => some (acc, calls + 1)
    | .ok items next =>
      if items = [] then some (acc, calls + 1)
      else
        match next with
        | some np =>
          if currentPage < 10 then fetchPagesLoop env fuel np (acc ++ items) (calls + 1)
          else some (acc ++ items, calls + 1)
        | none => some (acc ++ items, calls + 1)

/-- State of the `libraries.api.cache.json` file: `none` = absent,
`some none` = present but does not parse, `some (some l)` = parses to `l`. -/
abbrev CacheState := Option (Option (List TenantRecord))

/-- The cached directory when the cache file exists and parses (lines 17-22). -/
def cacheParsed : CacheState → Option (List TenantRecord)
  | some (some l) => some l
  | _ => none

/-- What one call of `fetchAllLibrariesFromAPI` produces: the returned
directory, the cache file state after the call, and how many page requests
went out on the network. -/
structure DiscoverOut where
  dir : List TenantRecord
  cache : CacheState
  netCalls : Nat
deriving DecidableEq

/-- The network path of `fetchAllLibrariesFromAPI` (lines 25-94): page through
the index, normalize, filter, write the result to the cache file, return it. -/
def discoverNetwork (env : Nat → PageResult) (fuel : Nat) : Option DiscoverOut :=
  match fetchPagesLoop env fuel 1 [] 0 with
  | none => none
  | some (allItems, n) =>
    some ⟨normalizeItems allItems, some (some (normalizeItems allItems)), n⟩

/-- `fetchAllLibrariesFromAPI({ refresh })` (lines 16-95): when `refresh` is
false and the cache file exists and parses, return the cached list with no
network call (lines 17-23); otherwise fetch, normalize and overwrite the
cache.  The function itself never rejects: every page error is absorbed by
the loop's `break`; `none` only models fuel exhaustion of the embedding. -/
def fetchAllLibrariesFromAPI (env : Nat → PageResult) (cache : CacheState)
    (refresh : Bool) (fuel : Nat) : Option DiscoverOut :=
  if refresh = false then
    match cacheParsed cache with
    | some cached => some ⟨cached, cache, 0⟩
    | none => discoverNetwork env fuel
  else discoverNetwork env fuel

/-- The local filesystem as `loadLibrarySlugs` (lines 97-148) sees it:
the dynamic cache and the three static fallback datasets.  `detailed` and
`simple` entries are reduced to the `(slug, status)` pairs the loader reads;
`legacy` holds `Object.values(librariesData)` of `libraries.json`. -/
structure FsEnv where
  libCache : CacheState
  detailed : Option (Option (List (String × Option String)))
  simple : Option (Option (List (String × Option String)))
  legacy : Option (Option (List String))
deriving DecidableEq

/-- `loadLibrarySlugs({ dynamic })` (lines 97-148): dynamic cache first (a
parse failure falls through), then the detailed dataset filtered to `Live`,
then the simple dataset filtered to `Live`, then the legacy name-to-url map
with the domain suffix stripped, else the empty list. -/
def loadLibrarySlugs (fs : FsEnv) (dynamic : Bool) : List String :=
  match dynamic, fs.libCache with
  | true, some (some list) => list.map (·.slug)
  | _, _ =>
    match fs.detailed with
    | some (some entries) =>
      ((entries.filter fun e => e.2 == some "Live").map (·.1))
    | _ =>
      match fs.simple with
      | some (some entries) =>
        ((entries.filter fun e => e.2 == some "Live").map (·.1))
      | _ =>
        match fs.legacy with
        | some (some urls) => urls.map fun u => replaceFirst u ".overdrive.com"
        | _ => []

/-- One item of a tenant's media-search response (`data.items` entry, lines
387-401).  `none` on the numeric fields models an absent field, defaulted by
the source's `|| 0`. -/
structure Book where
  title : String
  firstCreatorName : String
  typeId : String
  isAvailable : Bool
  availableCopies : Option Nat
  ownedCopies : Option Nat
  holdsCount : Option Nat
  estimatedWaitDays : Option Nat
  id : String
deriving DecidableEq

/-- One result row pushed by lines 389-400. -/
structure SearchHit where
  library : String
  title : String
  author : String
  format : String
  available : Bool
  availableCopies : Nat
  totalCopies : Nat
  holds : Nat
  estimatedWaitDays : Nat
  url : String
deriving DecidableEq

/-- The hit built from one response item for tenant `library` (lines 389-400),
with the detail URL synthesized from the slug and the item id. -/
def bookToHit (library : String) (b : Book) : SearchHit :=
  { library := library
    title := b.title
    author := b.firstCreatorName
    format := b.typeId
    available := b.isAvailable
    availableCopies := b.availableCopies.getD 0
    totalCopies := b.ownedCopies.getD 0
    holds := b.holdsCount.getD 0
    estimatedWaitDays := b.estimatedWaitDays.getD 0
    url := "https://" ++ library ++ ".overdrive.com/media/" ++ b.id }

/-- Outcome of one tenant's media-search request.  `ok items` covers every
response whose body parses (the source never checks the status except for
429, line 379; a body without an `items` array contributes `ok []`).
`netErr` covers a `fetch` rejection and a body that fails to parse, which the
`catch` of lines 403-415 treats identically.  `http429` carries the raw
`Retry-After` header value (`none` = header absent). -/
inductive FetchOutcome where
  | ok (items : List Book)
  | http429 (retryAfter : Option String)
  | netErr
deriving DecidableEq

/-- Seconds slept after a 429 (lines 380-381):
`parseInt(response.headers.get('retry-after') || '5')`.  An absent or empty
header yields the literal '5'; a present non-numeric header yields `NaN`,
and `setTimeout(NaN * 1000)` fires immediately, modelled as 0 seconds. -/
def retryAfterSleep (h : Option String) : Nat :=
  match h with
  | none => 5
  | some s => if s = "" then 5 else (jsParseInt s).getD 0

/-- The comparator of lines 419-423: available first; among unavailable,
ascending `estimatedWaitDays`; 0 otherwise. -/
def hitCmp (a b : SearchHit) : Int :=
  if a.available ≠ b.available then
    (if b.available then (1 : Int) else 0) - (if a.available then (1 : Int) else 0)
  else if a.available = false ∧ b.available = false then
    (a.estimatedWaitDays : Int) - (b.estimatedWaitDays : Int)
  else 0

/-- The total preorder the comparator realizes, as a single key:
an available hit has key 0, an unavailable one key `1 + wait`.  Two hits
compare equal under `hitCmp` exactly when their keys are equal. -/
def sortKey (h : SearchHit) : Nat :=
  if h.available then 0 else 1 + h.estimatedWaitDays

/-- Stable insertion wrt `hitCmp`: the inserted element goes before the first
element not strictly below it, so an element inserted later (which came
earlier in the input) precedes its ties. -/
def insertHit (a : SearchHit) : List SearchHit → List SearchHit
  | [] => [a]
  | b :: l => if hitCmp b a < 0 then b :: insertHit a l else a :: b :: l

/-- `results.sort(comparator)` of lines 419-423.  ECMAScript `Array.sort` is
stable, and the comparator is a consistent total preorder, so its output is
the unique stable order; this stable insertion sort computes the same list. -/
def sortHits : List SearchHit → List SearchHit
  | [] => []
  | a :: l => insertHit a (sortHits l)

/-- The grouping key of line 427: backtick-template `title-format`. -/
def groupKey (h : SearchHit) : String := h.title ++ "-" ++ h.format

/-- One step of the `reduce` of lines 426-431 on the accumulator object,
rendered as an ordered association list: a JS object iterates string keys in
insertion order (every key here contains a dash, so no array-index keys
occur), `acc[key].push(curr)` appends. -/
def addToGroups (acc : List (String × List SearchHit)) (h : SearchHit) :
    List (String × List SearchHit) :=
  if acc.any (fun p => p.1 == groupKey h) then
    acc.map fun p => if p.1 == groupKey h then (p.1, p.2 ++ [h]) else p
  else acc ++ [(groupKey h, [h])]

/-- The `reduce` of lines 426-431 over a starting accumulator. -/
def groupResultsList : List SearchHit → List (String × List SearchHit) →
    List (String × List SearchHit)
  | [], acc => acc
  | h :: t, acc => groupResultsList t (addToGroups acc h)

/-- The grouped result object built from a hit list (lines 426-431). -/
def groupResults (l : List SearchHit) : List (String × List SearchHit) :=
  groupResultsList l []

/-- The aggregation tail of `searchLibraries` (lines 418-433): sort, then
group. -/
def aggregate (l : List SearchHit) : List (String × List SearchHit) :=
  groupResults (sortHits l)

/-- Reading one group of the grouped object; the empty list when the key is
absent. -/
def lookupGroup (gs : List (String × List SearchHit)) (k : String) : List SearchHit :=
  match gs.find? (fun p => p.1 == k) with
  | some p => p.2
  | none => []

/-- First-appearance deduplication of a key sequence, with accumulator. -/
def dedupFirstAux : List String → List String → List String
  | acc, [] => acc
  | acc, k :: t => dedupFirstAux (if acc.any (fun x => x == k) then acc else acc ++ [k]) t

/-- First-appearance deduplication of a key sequence. -/
def dedupFirst (l : List String) : List String := dedupFirstAux [] l

/-- The favorites comparator of lines 350-354: `(bFav ? 1 : 0) - (aFav ? 1 : 0)`
with membership in the preference set. -/
def favCmp (favs : List String) (a b : String) : Int :=
  (if favs.contains b then (1 : Int) else 0) - (if favs.contains a then (1 : Int) else 0)

/-- Stable insertion wrt `favCmp`, mirroring `insertHit`. -/
def insertFav (favs : List String) (a : String) : List String → List String
  | [] => [a]
  | b :: l => if favCmp favs b a < 0 then b :: insertFav favs a l else a :: b :: l

/-- `slugs.sort((a, b) => (bFav ? 1 : 0) - (aFav ? 1 : 0))` of lines 350-354,
as the stable sort ECMAScript specifies for this consistent comparator. -/
def favSort (favs : List String) : List String → List String
  | [] => []
  | a :: l => insertFav favs a (favSort favs l)

/-- `maxLibs ? libraries.slice(0, maxLibs) : libraries` (line 357); a zero
`maxLibs` is falsy in JS, so it does not truncate. -/
def applyMaxLibs (maxLibs : Option Nat) (libraries : List String) : List String :=
  match maxLibs with
  | some m => if m = 0 then libraries else libraries.take m
  | none => libraries

/-- The environment one `searchLibraries` invocation runs against.  The
limiter is the process-wide `RateLimiterMemory` of lines 11-14: `consume`
either resolves (a permit is granted) or rejects carrying `msBeforeNext`
(lines 408-412 of the source handle exactly that rejection), so it is
supplied as an oracle over the sequence of `consume` calls the search loop
makes.  `fetch` gives the media-search outcome per (pass, tenant): a pass is
one traversal of the tenant list, and the recursive self-call of line 407
starts a new pass. -/
structure SearchEnv where
  fs : FsEnv
  pages : Nat → PageResult
  discoverFuel : Nat
  favoriteLibraries : List String
  limiter : Nat → Option Nat
  fetch : Nat → String → FetchOutcome

/-- What happened at one tenant's loop iteration (lines 365-416):
`limiterSkip ms` is the `error.msBeforeNext` branch (wait, then `continue` to
the next library, lines 408-413) — no request goes out; `fetched o` means the
media-search request was issued with outcome `o`. -/
inductive TenantEvent where
  | limiterSkip (msBeforeNext : Nat)
  | fetched (outcome : FetchOutcome)
deriving DecidableEq

/-- How one traversal of the tenant list ends: `completed` falls out of the
`for` loop with the accumulated hits; `restart` is the 429 path (sleep for
the Retry-After hint, throw the sentinel, catch it, and re-invoke the whole
search, lines 379-383 and 404-407). -/
inductive PassOut where
  | completed (hits : List SearchHit) (nextCall : Nat)
      (events : List (Nat × String × TenantEvent)) (sleepsMs : List Nat)
  | restart (nextCall : Nat)
      (events : List (Nat × String × TenantEvent)) (sleepsMs : List Nat)
deriving DecidableEq

/-- The `for (const library of searchLibraries)` loop of lines 365-416.
Per tenant: one `consume` call; on rejection sleep `msBeforeNext` and
`continue` (the tenant's request is never issued); on grant issue the fetch;
a 429 sleeps the Retry-After hint and aborts the pass for a full restart;
any other error contributes nothing and the loop continues; an `ok` response
appends one hit per item. -/
def searchPass (env : SearchEnv) (passIdx : Nat) :
    List String → Nat → List SearchHit → List (Nat × String × TenantEvent) →
    List Nat → PassOut
  | [], c, acc, ev, sl => .completed acc c ev sl
  | t :: ts, c, acc, ev, sl =>
    match env.limiter c with
    | some ms =>
      searchPass env passIdx ts (c + 1) acc (ev ++ [(passIdx, t, .limiterSkip ms)]) (sl ++ [ms])
    | none =>
      match env.fetch passIdx t with
      | .http429 h =>
        .restart (c + 1) (ev ++ [(passIdx, t, .fetched (.http429 h))])
          (sl ++ [retryAfterSleep h * 1000])
      | .netErr =>
        searchPass env passIdx ts (c + 1) acc (ev ++ [(passIdx, t, .fetched .netErr)]) sl
      | .ok items =>
        searchPass env passIdx ts (c + 1) (acc ++ items.map (bookToHit t))
          (ev ++ [(passIdx, t, .fetched (.ok items))]) sl

/-- Slug resolution of lines 335-340: `loadLibrarySlugs({ dynamic })`, then,
when that is empty and `dynamic` holds, one non-forced
`fetchAllLibrariesFromAPI({ refresh: false })` bootstrap whose records are
mapped to slugs.  Returns the slugs together with the cache state after the
possible bootstrap write; `none` only on discovery fuel exhaustion. -/
def resolveSlugs (env : SearchEnv) (cacheState : CacheState) (dynamic : Bool) :
    Option (List String × CacheState) :=
  let slugs := loadLibrarySlugs { env.fs with libCache := cacheState } dynamic
  if slugs = [] ∧ dynamic then
    match fetchAllLibrariesFromAPI env.pages cacheState false env.discoverFuel with
    | none => none
    | some out => some (out.dir.map (·.slug), out.cache)
  else some (slugs, cacheState)

/-- The message of the throw at line 343. -/
def noLibsMsg : String :=
  "No libraries found. Try running with --refresh-libs or create libraries.json"

/-- Everything one `searchLibraries` call produces: the settled promise
(`.error` = the rejection of line 343, `.ok` = the grouped results of line
433), plus the event and sleep logs of the whole run, restarts included. -/
instance {ε α : Type} [DecidableEq ε] [DecidableEq α] : DecidableEq (Except ε α) := fun a b =>
  match a, b with
  | .error x, .error y =>
    if h : x = y then .isTrue (by rw [h]) else .isFalse (by simp [h])
  | .ok x, .ok y =>
    if h : x = y then .isTrue (by rw [h]) else .isFalse (by simp [h])
  | .error _, .ok _ => .isFalse (by simp)
  | .ok _, .error _ => .isFalse (by simp)

structure RunOut where
  result : Except String (List (String × List SearchHit))
  events : List (Nat × String × TenantEvent)
  sleepsMs : List Nat
deriving DecidableEq

/-- The body of `searchLibraries(searchTitle, searchAuthor, { maxLibs,
dynamic })` (lines 331-434), with fuel bounding the number of passes: the
429 branch re-invokes the whole function with no options object (line 407),
so the restarted invocation re-resolves slugs with `dynamic = true`, applies
no `maxLibs` truncation, and starts from an empty accumulator.  `none` only
models fuel (or discovery fuel) exhaustion; the source on those paths would
recurse or paginate further. -/
def searchGo (env : SearchEnv) :
    Nat → Nat → Nat → List (Nat × String × TenantEvent) → List Nat →
    Option Nat → Bool → CacheState → Option RunOut
  | 0, _, _, _, _, _, _, _ => none
  | fuel + 1, passIdx, callIdx, ev, sl, maxLibs, dynamic, cacheState =>
    match resolveSlugs env cacheState dynamic with
    | none => none
    | some (slugs, cacheState') =>
      if slugs = [] then some ⟨.error noLibsMsg, ev, sl⟩
      else
        match searchPass env passIdx (applyMaxLibs maxLibs (favSort env.favoriteLibraries slugs))
            callIdx [] ev sl with
        | .completed hits _ ev' sl' => some ⟨.ok (aggregate hits), ev', sl'⟩
        | .restart c' ev' sl' => searchGo env fuel (passIdx + 1) c' ev' sl' none true cacheState'

/-- A top-level `searchLibraries` call. -/
def searchLibrariesRun (env : SearchEnv) (maxLibs : Option Nat) (dynamic : Bool)
    (fuel : Nat) : Option RunOut :=
  searchGo env fuel 0 0 [] [] maxLibs dynamic env.fs.libCache

/-- What one tenant contributes to the hit accumulator when its loop
iteration uses `consume` call number `c`: nothing on a limiter rejection or
a request failure, one hit per item on an `ok` response. -/
def tenantContribution (env : SearchEnv) (p : Nat) (t : String) (c : Nat) :
    List SearchHit :=
  match env.limiter c with
  | some _ => []
  | none =>
    match env.fetch p t with
    | .ok items => items.map (bookToHit t)
    | _ => []

/-- Closed form of the hits a 429-free pass accumulates. -/
def passHits (env : SearchEnv) (p : Nat) : List String → Nat → List SearchHit
  | [], _ => []
  | t :: ts, c => tenantContribution env p t c ++ passHits env p ts (c + 1)

/-- Closed form of the event log of a 429-free pass: one event per tenant. -/
def passEvents (env : SearchEnv) (p : Nat) :
    List String → Nat → List (Nat × String × TenantEvent)
  | [], _ => []
  | t :: ts, c =>
    (match env.limiter c with
      | some ms => (p, t, TenantEvent.limiterSkip ms)
      | none => (p, t, TenantEvent.fetched (env.fetch p t))) :: passEvents env p ts (c + 1)

/-- Closed form of the sleeps of a 429-free pass: one per limiter rejection. -/
def passSleeps (env : SearchEnv) (p : Nat) : List String → Nat → List Nat
  | [], _ => []
  | _ :: ts, c =>
    (match env.limiter c with
      | some ms => [ms]
      | none => []) ++ passSleeps env p ts (c + 1)

/-- The tenant list the pass iterates: favorites-first order, then the
`maxLibs` truncation (lines 348-357). -/
def consideredTenants (env : SearchEnv) (maxLibs : Option Nat)
    (slugs : List String) : List String :=
  applyMaxLibs maxLibs (favSort env.favoriteLibraries slugs)

/-- The tenants whose media-search request actually went out, read off the
event log. -/
def issuedTenants (ev : List (Nat × String × TenantEvent)) : List String :=
  (ev.filter fun e =>
    match e.2.2 with
    | .fetched _ => true
    | .limiterSkip _ => false).map fun e => e.2.1

/-! ### Ordering lemmas for the result sort -/

/-- The comparator realizes the single-key order: nonpositive exactly when
the keys are ordered. -/
theorem hitCmp_le_iff (a b : SearchHit) : hitCmp a b ≤ 0 ↔ sortKey a ≤ sortKey b := by
  cases ha : a.available <;> cases hb : b.available <;>
    simp [hitCmp, sortKey, ha, hb] <;> omega

/-- The comparator is strictly negative exactly when the keys are strictly
ordered. -/
theorem hitCmp_lt_iff (a b : SearchHit) : hitCmp a b < 0 ↔ sortKey a < sortKey b := by
  cases ha : a.available <;> cases hb : b.available <;>
    simp [hitCmp, sortKey, ha, hb] <;> omega

/-- The comparator is zero exactly on equal keys (the tie classes). -/
theorem hitCmp_eq_zero_iff (a b : SearchHit) : hitCmp a b = 0 ↔ sortKey a = sortKey b := by
  cases ha : a.available <;> cases hb : b.available <;>
    simp [hitCmp, sortKey, ha, hb] <;> omega

theorem mem_insertHit (x a : SearchHit) (l : List SearchHit) :
    x ∈ insertHit a l ↔ x = a ∨ x ∈ l := by
  induction l with
  | nil => simp [insertHit]
  | cons b t ih =>
    simp only [insertHit]
    split
    · simp only [List.mem_cons, ih]
      tauto
    · simp only [List.mem_cons]

theorem mem_sortHits (x : SearchHit) (l : List SearchHit) :
    x ∈ sortHits l ↔ x ∈ l := by
  induction l with
  | nil => simp [sortHits]
  | cons a t ih => simp [sortHits, mem_insertHit, ih]

theorem pairwise_insertHit (a : SearchHit) (l : List SearchHit)
    (h : l.Pairwise fun x y => sortKey x ≤ sortKey y) :
    (insertHit a l).Pairwise fun x y => sortKey x ≤ sortKey y := by
  induction l with
  | nil => simp [insertHit]
  | cons b t ih =>
    rw [List.pairwise_cons] at h
    simp only [insertHit]
    split
    · rename_i hlt
      rw [hitCmp_lt_iff] at hlt
      refine List.pairwise_cons.mpr ⟨?_, ih h.2⟩
      intro x hx
      rcases (mem_insertHit x a t).mp hx with rfl | hx
      · omega
      · exact h.1 x hx
    · rename_i hnlt
      rw [hitCmp_lt_iff] at hnlt
      refine List.pairwise_cons.mpr ⟨?_, List.pairwise_cons.mpr ⟨h.1, h.2⟩⟩
      intro x hx
      rcases List.mem_cons.mp hx with rfl | hx
      · omega
      · exact le_trans (by omega) (h.1 x hx)

/-- The sorted list is ordered by the comparator's key. -/
theorem pairwise_sortHits (l : List SearchHit) :
    (sortHits l).Pairwise fun x y => sortKey x ≤ sortKey y := by
  induction l with
  | nil => simp [sortHits]
  | cons a t ih => exact pairwise_insertHit a _ ih

theorem filter_insertHit_eq (a : SearchHit) (l : List SearchHit) (k : Nat)
    (hk : sortKey a = k) :
    (insertHit a l).filter (fun x => sortKey x == k) =
      a :: l.filter (fun x => sortKey x == k) := by
  induction l with
  | nil => simp [insertHit, hk]
  | cons b t ih =>
    simp only [insertHit]
    split
    · rename_i hlt
      rw [hitCmp_lt_iff] at hlt
      have hb : (sortKey b == k) = false := by
        simp only [beq_eq_false_iff_ne, ne_eq]
        omega
      simp only [List.filter_cons, hb, Bool.false_eq_true, if_false, ih]
    · simp [List.filter_cons, hk]

theorem filter_insertHit_ne (a : SearchHit) (l : List SearchHit) (k : Nat)
    (hk : sortKey a ≠ k) :
    (insertHit a l).filter (fun x => sortKey x == k) =
      l.filter (fun x => sortKey x == k) := by
  induction l with
  | nil => simp [insertHit, hk]
  | cons b t ih =>
    simp only [insertHit]
    split
    · simp only [List.filter_cons, ih]
    · simp [List.filter_cons, hk]

/-- Stability of the sort: each tie class (fiber of the comparator's key)
keeps its input order. -/
theorem sortHits_filter_fiber (l : List SearchHit) (k : Nat) :
    (sortHits l).filter (fun x => sortKey x == k) =
      l.filter (fun x => sortKey x == k) := by
  induction l with
  | nil => rfl
  | cons a t ih =>
    by_cases hk : sortKey a = k
    · rw [sortHits, filter_insertHit_eq a _ k hk, ih, List.filter_cons]
      simp [hk]
    · rw [sortHits, filter_insertHit_ne a _ k hk, ih, List.filter_cons]
      simp [hk]

/-! ### Grouping lemmas -/

theorem map_fst_addToGroups (acc : List (String × List SearchHit)) (h : SearchHit) :
    (addToGroups acc h).map Prod.fst =
      if acc.any (fun p => p.1 == groupKey h) then acc.map Prod.fst
      else acc.map Prod.fst ++ [groupKey h] := by
  unfold addToGroups
  split
  · rw [List.map_map]
    apply List.map_congr_left
    intro p _
    by_cases hp : (p.1 == groupKey h) = true <;> simp [Function.comp, hp]
  · simp

theorem any_fst_map (acc : List (String × List SearchHit)) (k : String) :
    ((acc.map Prod.fst).any fun x => x == k) = acc.any fun p => p.1 == k := by
  induction acc with
  | nil => rfl
  | cons p t ih => simp only [List.map_cons, List.any_cons, ih]

theorem map_fst_groupResultsList (l : List SearchHit) :
    ∀ acc, (groupResultsList l acc).map Prod.fst =
      dedupFirstAux (acc.map Prod.fst) (l.map groupKey) := by
  induction l with
  | nil => intro acc; rfl
  | cons h t ih =>
    intro acc
    rw [groupResultsList, ih, List.map_cons, dedupFirstAux]
    congr 1
    rw [map_fst_addToGroups, any_fst_map]

/-- The group keys of the grouped object, in first-appearance order of the
hit sequence it was built from. -/
theorem map_fst_groupResults (l : List SearchHit) :
    (groupResults l).map Prod.fst = dedupFirst (l.map groupKey) := by
  rw [groupResults, map_fst_groupResultsList]
  rfl

/-- Reading a cons cell of the grouped object. -/
theorem lookupGroup_cons (p : String × List SearchHit)
    (t : List (String × List SearchHit)) (k : String) :
    lookupGroup (p :: t) k = if p.1 == k then p.2 else lookupGroup t k := by
  by_cases hp : (p.1 == k) = true
  · have hfind : List.find? (fun q => q.1 == k) (p :: t) = some p :=
      List.find?_cons_of_pos t hp
    rw [if_pos hp]
    simp only [lookupGroup, hfind]
  · have hfind : List.find? (fun q => q.1 == k) (p :: t) =
        List.find? (fun q => q.1 == k) t :=
      List.find?_cons_of_neg t hp
    rw [if_neg hp]
    simp only [lookupGroup, hfind]

theorem lookupGroup_mapUpdate_ne (gk : String) (h : SearchHit) (k : String)
    (hk : k ≠ gk) (acc : List (String × List SearchHit)) :
    lookupGroup (acc.map fun p => if p.1 == gk then (p.1, p.2 ++ [h]) else p) k =
      lookupGroup acc k := by
  induction acc with
  | nil => rfl
  | cons p t ih =>
    by_cases hp : (p.1 == gk) = true
    · have hpk : (p.1 == k) = false := by
        rw [beq_iff_eq.mp hp, beq_eq_false_iff_ne]
        exact fun hh => hk hh.symm
      rw [List.map_cons, if_pos hp, lookupGroup_cons, lookupGroup_cons]
      simp only [hpk, Bool.false_eq_true, if_false]
      exact ih
    · rw [List.map_cons, if_neg hp, lookupGroup_cons, lookupGroup_cons]
      by_cases hpk : (p.1 == k) = true
      · simp [hpk]
      · simp only [hpk, Bool.false_eq_true, if_false]
        exact ih

theorem lookupGroup_mapUpdate_eq (gk : String) (h : SearchHit)
    (acc : List (String × List SearchHit))
    (hin : acc.any (fun p => p.1 == gk) = true) :
    lookupGroup (acc.map fun p => if p.1 == gk then (p.1, p.2 ++ [h]) else p) gk =
      lookupGroup acc gk ++ [h] := by
  induction acc with
  | nil => simp at hin
  | cons p t ih =>
    by_cases hp : (p.1 == gk) = true
    · rw [List.map_cons, if_pos hp, lookupGroup_cons, lookupGroup_cons]
      simp only [hp, if_true]
    · simp only [List.any_cons, hp, Bool.false_or] at hin
      rw [List.map_cons, if_neg hp, lookupGroup_cons, lookupGroup_cons]
      simp only [hp, Bool.false_eq_true, if_false]
      exact ih hin

theorem lookupGroup_append_new (gk : String) (h : SearchHit)
    (acc : List (String × List SearchHit)) (k : String)
    (hout : acc.any (fun p => p.1 == gk) = false) :
    lookupGroup (acc ++ [(gk, [h])]) k =
      if k = gk then lookupGroup acc k ++ [h] else lookupGroup acc k := by
  induction acc with
  | nil =>
    rw [List.nil_append, lookupGroup_cons]
    by_cases hk : k = gk
    · simp [lookupGroup, hk]
    · have : (gk == k) = false := by
        rw [beq_eq_false_iff_ne]
        exact fun hh => hk hh.symm
      simp [lookupGroup, this, hk]
  | cons p t ih =>
    simp only [List.any_cons, Bool.or_eq_false_iff] at hout
    rw [List.cons_append, lookupGroup_cons, lookupGroup_cons]
    by_cases hp : (p.1 == k) = true
    · by_cases hk : k = gk
      · exact absurd (hk ▸ hp) (by simp [hout.1])
      · simp [hp, hk]
    · simp only [hp, Bool.false_eq_true, if_false]
      exact ih hout.2

/-- The effect of one `reduce` step on one group. -/
theorem lookupGroup_addToGroups (acc : List (String × List SearchHit))
    (h : SearchHit) (k : String) :
    lookupGroup (addToGroups acc h) k =
      if k = groupKey h then lookupGroup acc k ++ [h] else lookupGroup acc k := by
  unfold addToGroups
  by_cases hin : acc.any (fun p => p.1 == groupKey h) = true
  · rw [if_pos hin]
    by_cases hk : k = groupKey h
    · rw [if_pos hk, hk]
      exact lookupGroup_mapUpdate_eq _ h acc hin
    · rw [if_neg hk]
      exact lookupGroup_mapUpdate_ne _ h k hk acc
  · rw [if_neg hin]
    exact lookupGroup_append_new _ h acc k (Bool.not_eq_true _ ▸ hin)

/-- Each group of the grouped object holds exactly the hits of its key, in
the order of the hit sequence. -/
theorem lookupGroup_groupResultsList (l : List SearchHit) :
    ∀ acc k, lookupGroup (groupResultsList l acc) k =
      lookupGroup acc k ++ l.filter (fun x => groupKey x == k) := by
  induction l with
  | nil =>
    intro acc k
    simp [groupResultsList]
  | cons h t ih =>
    intro acc k
    rw [groupResultsList, ih, lookupGroup_addToGroups, List.filter_cons]
    by_cases hk : k = groupKey h
    · subst hk
      simp [List.append_assoc]
    · have : (groupKey h == k) = false := by
        rw [beq_eq_false_iff_ne]
        exact fun hh => hk hh.symm
      simp only [hk, if_false, this, Bool.false_eq_true]

/-- Reading a group of `groupResults` is filtering the hit sequence by that
group's key. -/
theorem lookupGroup_groupResults (l : List SearchHit) (k : String) :
    lookupGroup (groupResults l) k = l.filter (fun x => groupKey x == k) := by
  rw [groupResults, lookupGroup_groupResultsList]
  rfl

/-! ### Favorites ordering lemmas -/

theorem favCmp_nonneg_of_fav (favs : List String) (a b : String)
    (ha : favs.contains a = true) : ¬ favCmp favs b a < 0 := by
  unfold favCmp
  rw [ha]
  cases hb : favs.contains b <;> decide

theorem favCmp_nonneg_of_nonfav (favs : List String) (a b : String)
    (ha : favs.contains a = false) (hb : favs.contains b = false) :
    ¬ favCmp favs b a < 0 := by
  unfold favCmp
  rw [ha, hb]
  decide

theorem favCmp_neg_mixed (favs : List String) (a b : String)
    (ha : favs.contains a = false) (hb : favs.contains b = true) :
    favCmp favs b a < 0 := by
  unfold favCmp
  rw [ha, hb]
  decide

theorem insertFav_fav (favs : List String) (a : String)
    (ha : favs.contains a = true) (l : List String) :
    insertFav favs a l = a :: l := by
  cases l with
  | nil => rfl
  | cons b t => simp only [insertFav, if_neg (favCmp_nonneg_of_fav favs a b ha)]

theorem insertFav_nonfav_front (favs : List String) (a : String)
    (ha : favs.contains a = false) (l : List String)
    (hl : ∀ b ∈ l, favs.contains b = false) :
    insertFav favs a l = a :: l := by
  cases l with
  | nil => rfl
  | cons b t =>
    simp only [insertFav,
      if_neg (favCmp_nonneg_of_nonfav favs a b ha (hl b (List.mem_cons_self b t)))]

theorem insertFav_nonfav_skip (favs : List String) (a : String)
    (ha : favs.contains a = false) :
    ∀ (F N : List String), (∀ b ∈ F, favs.contains b = true) →
      insertFav favs a (F ++ N) = F ++ insertFav favs a N := by
  intro F
  induction F with
  | nil => intro N _; rfl
  | cons b F' ih =>
    intro N hF
    have hb := hF b (List.mem_cons_self b F')
    simp only [List.cons_append, insertFav, if_pos (favCmp_neg_mixed favs a b ha hb)]
    exact congrArg (b :: ·) (ih N fun x hx => hF x (List.mem_cons_of_mem b hx))

/-- The favorites sort is the stable partition: favorites first, each side in
source order. -/
theorem favSort_partition (favs l : List String) :
    favSort favs l =
      (l.filter fun s => favs.contains s) ++ (l.filter fun s => !favs.contains s) := by
  induction l with
  | nil => rfl
  | cons a t ih =>
    rw [favSort, ih]
    by_cases ha : favs.contains a = true
    · have h2 : ¬ ((!favs.contains a) = true) := by
        rw [ha]
        decide
      rw [insertFav_fav favs a ha, List.filter_cons, List.filter_cons, if_pos ha,
        if_neg h2]
      rfl
    · have ha' : favs.contains a = false := by
        rw [Bool.not_eq_true] at ha
        exact ha
      have h2 : (!favs.contains a) = true := by
        rw [ha']
        decide
      rw [insertFav_nonfav_skip favs a ha' _ _ fun b hb => (List.mem_filter.mp hb).2,
        insertFav_nonfav_front favs a ha' _ fun b hb => by
          have hbb := (List.mem_filter.mp hb).2
          rwa [Bool.not_eq_eq_eq_not, Bool.not_true] at hbb,
        List.filter_cons, List.filter_cons, if_neg ha, if_pos h2]

/-! ### Closed form of a 429-free pass -/

/-- When no tenant of the pass answers 429, the loop completes, and its
accumulated hits, events and sleeps take the per-tenant closed forms. -/
theorem searchPass_no429 (env : SearchEnv) (p : Nat) :
    ∀ (ts : List String) (c : Nat) (acc : List SearchHit)
      (ev : List (Nat × String × TenantEvent)) (sl : List Nat),
      (∀ t ∈ ts, ∀ h, env.fetch p t ≠ .http429 h) →
      searchPass env p ts c acc ev sl =
        .completed (acc ++ passHits env p ts c) (c + ts.length)
          (ev ++ passEvents env p ts c) (sl ++ passSleeps env p ts c) := by
  intro ts
  induction ts with
  | nil =>
    intro c acc ev sl _
    simp [searchPass, passHits, passEvents, passSleeps]
  | cons t ts' ih =>
    intro c acc ev sl h429
    have ht := h429 t (List.mem_cons_self t ts')
    have hrest : ∀ x ∈ ts', ∀ h, env.fetch p x ≠ .http429 h :=
      fun x hx => h429 x (List.mem_cons_of_mem t hx)
    cases hlim : env.limiter c with
    | some ms =>
      simp only [searchPass, hlim]
      rw [ih (c + 1) acc _ _ hrest]
      simp only [passHits, passEvents, passSleeps, tenantContribution, hlim,
        List.append_assoc, List.nil_append, List.singleton_append, List.length_cons,
        List.cons_append]
      congr 1
      omega
    | none =>
      cases hf : env.fetch p t with
      | http429 h => exact absurd hf (ht h)
      | netErr =>
        simp only [searchPass, hlim, hf]
        rw [ih (c + 1) acc _ _ hrest]
        simp only [passHits, passEvents, passSleeps, tenantContribution, hlim, hf,
          List.append_assoc, List.nil_append, List.singleton_append, List.length_cons,
          List.cons_append]
        congr 1
        omega
      | ok items =>
        simp only [searchPass, hlim, hf]
        rw [ih (c + 1) _ _ _ hrest]
        simp only [passHits, passEvents, passSleeps, tenantContribution, hlim, hf,
          List.append_assoc, List.nil_append, List.singleton_append, List.length_cons,
          List.cons_append]
        congr 1
        omega

/-- A run whose first pass sees no 429 finishes in that single pass, with the
closed-form hits, events and sleeps over the considered tenant list. -/
theorem searchRun_single_pass (env : SearchEnv) (maxLibs : Option Nat)
    (dynamic : Bool) (slugs : List String) (cache' : CacheState)
    (hres : resolveSlugs env env.fs.libCache dynamic = some (slugs, cache'))
    (hne : ¬ slugs = [])
    (h429 : ∀ t h, env.fetch 0 t ≠ .http429 h) :
    searchLibrariesRun env maxLibs dynamic 1 =
      some ⟨.ok (aggregate (passHits env 0 (consideredTenants env maxLibs slugs) 0)),
            passEvents env 0 (consideredTenants env maxLibs slugs) 0,
            passSleeps env 0 (consideredTenants env maxLibs slugs) 0⟩ := by
  unfold searchLibrariesRun searchGo
  simp only [hres, if_neg hne]
  rw [searchPass_no429 env 0 _ 0 [] [] [] fun t _ => h429 t]
  simp only [consideredTenants, List.nil_append]

/-! ### Discovery lemmas -/

/-- Every record surviving normalization has a nonempty slug, Live status,
and comes from one raw item by the source's field mapping. -/
theorem normalizeItems_mem (items : List RawLibItem) (r : TenantRecord)
    (hr : r ∈ normalizeItems items) :
    r.slug ≠ "" ∧ r.status = some "Live" ∧ ∃ it ∈ items, r = normalizeItem it := by
  unfold normalizeItems at hr
  obtain ⟨hmem, hpred⟩ := List.mem_filter.mp hr
  obtain ⟨it, hit, rfl⟩ := List.mem_map.mp hmem
  rw [Bool.and_eq_true, bne_iff_ne, beq_iff_eq] at hpred
  exact ⟨hpred.1, hpred.2, it, hit, rfl⟩

/-- A forced refresh always takes the network path. -/
theorem fetchAll_refresh (env : Nat → PageResult) (cache : CacheState) (fuel : Nat) :
    fetchAllLibrariesFromAPI env cache true fuel = discoverNetwork env fuel := by
  unfold fetchAllLibrariesFromAPI
  rw [if_neg (by decide)]

/-- A parsing cache short-circuits a non-forced discovery: the cached
directory is returned, the file is untouched, no page request goes out. -/
theorem fetchAll_cache_hit (env : Nat → PageResult) (dir : List TenantRecord)
    (cache : CacheState) (fuel : Nat) (h : cacheParsed cache = some dir) :
    fetchAllLibrariesFromAPI env cache false fuel = some ⟨dir, cache, 0⟩ := by
  unfold fetchAllLibrariesFromAPI
  rw [if_pos rfl, h]

/-- An erroring page aborts the pagination at once with the accumulated
items (the `break` of line 78). -/
theorem fetchPagesLoop_err (env : Nat → PageResult) (fuel p : Nat)
    (acc : List RawLibItem) (calls : Nat) (h : env p = .err) :
    fetchPagesLoop env (fuel + 1) p acc calls = some (acc, calls + 1) := by
  simp only [fetchPagesLoop, h]

/-- The network path normalizes whatever the loop accumulated and writes it
to the cache. -/
theorem discoverNetwork_spec (env : Nat → PageResult) (fuel : Nat)
    (items : List RawLibItem) (n : Nat)
    (h : fetchPagesLoop env fuel 1 [] 0 = some (items, n)) :
    discoverNetwork env fuel =
      some ⟨normalizeItems items, some (some (normalizeItems items)), n⟩ := by
  unfold discoverNetwork
  rw [h]

/-! ### Claim C5 -/

/-- C5: `aggregate` (the result aggregation of `searchLibraries`) sorts all
hits with available hits before unavailable hits, orders unavailable hits by
ascending `estimatedWaitDays`, leaves every tie class (in particular all
available-vs-available pairs) in insertion order (stable sort), and groups
the sorted sequence under the title-format key: group iteration order is the
first-appearance order of keys in the sorted sequence, and each group holds
exactly the sorted hits of its key.  Determinism across runs is immediate:
`aggregate` is a pure function of the hit list. -/
theorem spec2proof_C5_aggregate (l : List SearchHit) :
    (sortHits l).Pairwise (fun a b =>
      (b.available = true → a.available = true) ∧
      (a.available = false → b.available = false →
        a.estimatedWaitDays ≤ b.estimatedWaitDays))
    ∧ (∀ k : Nat, (sortHits l).filter (fun x => sortKey x == k) =
        l.filter (fun x => sortKey x == k))
    ∧ (aggregate l).map Prod.fst = dedupFirst ((sortHits l).map groupKey)
    ∧ (∀ k : String, lookupGroup (aggregate l) k =
        (sortHits l).filter fun x => groupKey x == k) := by
  refine ⟨?_, fun k => sortHits_filter_fiber l k, map_fst_groupResults _,
    fun k => lookupGroup_groupResults _ k⟩
  refine (pairwise_sortHits l).imp ?_
  intro a b hab
  simp only [sortKey] at hab
  cases haa : a.available <;> cases hbb : b.available <;>
    simp only [haa, hbb, if_true, if_false, Bool.false_eq_true, Bool.true_eq_false,
      false_implies, true_implies, implies_true, and_true, true_and] at hab ⊢ <;>
    omega

/-! ### Claim C6 -/

/-- C6: tenant ordering before the search pass is the stable favorites-first
partition: favorites (in source order) precede non-favorites (in source
order); on tenants [a,b,c,d] with favorite set {c} the result is [c,a,b,d]. -/
theorem spec2proof_C6_favorites :
    (∀ favs l : List String, favSort favs l =
      (l.filter fun s => favs.contains s) ++ (l.filter fun s => !favs.contains s))
    ∧ favSort ["c"] ["a", "b", "c", "d"] = ["c", "a", "b", "d"] :=
  ⟨favSort_partition, by decide⟩

/-! ### Claim C10 -/

/-- A hit whose title itself contains a dash. -/
def collisionHitX : SearchHit :=
  ⟨"libx", "A-b", "ax", "c", true, 1, 1, 0, 0, "u1"⟩

/-- A hit with a different (title, format) pair that lands on the same key. -/
def collisionHitY : SearchHit :=
  ⟨"liby", "A", "ay", "b-c", true, 1, 1, 0, 0, "u2"⟩

/-- C10: the grouping key is not injective over (title, format): title "A-b"
with format "c" and title "A" with format "b-c" produce the same key
"A-b-c", and `aggregate` places the two hits in one group. -/
theorem spec2proof_C10_key_collision :
    (collisionHitX.title, collisionHitX.format) ≠
      (collisionHitY.title, collisionHitY.format)
    ∧ groupKey collisionHitX = groupKey collisionHitY
    ∧ aggregate [collisionHitX, collisionHitY] =
        [("A-b-c", [collisionHitX, collisionHitY])] :=
  ⟨by decide, by decide, by decide⟩

/-! ### Claim C7 -/

/-- C7: for every raw item set, the directory a forced discovery returns and
caches contains only records with a nonempty trimmed slug and Live status;
each record's slug is the trimmed preferred key falling back to the raw id,
and a missing name is replaced by the placeholder. -/
theorem spec2proof_C7_live_filter :
    (∀ items : List RawLibItem, ∀ r ∈ normalizeItems items,
      r.slug ≠ "" ∧ r.status = some "Live" ∧
      ∃ it ∈ items, r.slug = trimChars (jsOrStr it.preferredKey (jsOrStr it.id "")) ∧
        r.name = jsOrStr it.name "Unknown Library")
    ∧ (∀ (env : Nat → PageResult) (cache : CacheState) (fuel : Nat)
        (out : DiscoverOut),
        fetchAllLibrariesFromAPI env cache true fuel = some out →
        (∀ r ∈ out.dir, r.slug ≠ "" ∧ r.status = some "Live") ∧
        out.cache = some (some out.dir)) := by
  constructor
  · intro items r hr
    obtain ⟨h1, h2, it, hit, rfl⟩ := normalizeItems_mem items r hr
    exact ⟨h1, h2, it, hit, rfl, rfl⟩
  · intro env cache fuel out h
    rw [fetchAll_refresh] at h
    unfold discoverNetwork at h
    cases hl : fetchPagesLoop env fuel 1 [] 0 with
    | none =>
      rw [hl] at h
      exact absurd h (by simp)
    | some p =>
      rw [hl] at h
      obtain ⟨items, n⟩ := p
      obtain rfl := (Option.some_inj.mp h).symm
      refine ⟨fun r hr => ?_, rfl⟩
      obtain ⟨h1, h2, _⟩ := normalizeItems_mem items r hr
      exact ⟨h1, h2⟩

/-- The tenant-index page source of the C7 witness: one malformed item
(whitespace-only preferred key, no id), one non-Live item, one good item. -/
def pagesC7 : Nat → PageResult := fun p =>
  if p = 1 then
    .ok [⟨some "  lib1 ", none, none, false, some "Live"⟩,
         ⟨some "   ", none, some "Bad", false, some "Live"⟩,
         ⟨some "closed", none, some "Closed", false, some "Shut"⟩] none
  else .err

/-- The one record surviving normalization in the C7 witness scenario. -/
def recC7 : TenantRecord := ⟨"lib1", "Unknown Library", false, some "Live"⟩

/-- C7 witness: the malformed and non-Live items are discarded; the
surviving record carries the trimmed slug, the placeholder name, and Live
status, and the cache receives exactly the returned directory. -/
theorem spec2proof_C7_witness :
    fetchAllLibrariesFromAPI pagesC7 none true 2 =
      some ⟨[recC7], some (some [recC7]), 1⟩
    ∧ (∀ r ∈ [recC7], r.slug ≠ "" ∧ r.status = some "Live") := by
  constructor
  · decide
  · intro r hr
    exact (spec2proof_C7_live_filter.2 pagesC7 none 2
      ⟨[recC7], some (some [recC7]), 1⟩ (by decide)).1 r hr

/-! ### Claim C8 -/

/-- C8: a page error during discovery aborts further pagination but is not
raised: the loop returns exactly what it accumulated before the error (one
more page request having gone out), and `fetchAllLibrariesFromAPI` then
normalizes that accumulation, writes it to the cache, and returns it — the
embedding of the function has no failure outcome at all beyond fuel. -/
theorem spec2proof_C8_partial_discovery :
    (∀ (env : Nat → PageResult) (fuel p : Nat) (acc : List RawLibItem)
      (calls : Nat), env p = .err →
      fetchPagesLoop env (fuel + 1) p acc calls = some (acc, calls + 1))
    ∧ (∀ (env : Nat → PageResult) (cache : CacheState) (fuel : Nat)
        (items : List RawLibItem) (n : Nat),
        fetchPagesLoop env fuel 1 [] 0 = some (items, n) →
        fetchAllLibrariesFromAPI env cache true fuel =
          some ⟨normalizeItems items, some (some (normalizeItems items)), n⟩) := by
  constructor
  · exact fun env fuel p acc calls h => fetchPagesLoop_err env fuel p acc calls h
  · intro env cache fuel items n h
    rw [fetchAll_refresh]
    exact discoverNetwork_spec env fuel items n h

/-- The raw item page 1 returns in the C8 witness scenario. -/
def rawC8 : RawLibItem := ⟨some "lib1", none, some "Lib One", false, some "Live"⟩

/-- The page source of the C8 witness: page 1 yields one item and points at
page 2, page 2 errors. -/
def pagesC8 : Nat → PageResult := fun p =>
  if p = 1 then .ok [rawC8] (some 2) else .err

/-- C8 witness: the error on page 2 aborts pagination with page 1's item
still accumulated, and discovery returns the page-1 record normalized and
writes it to the cache. -/
theorem spec2proof_C8_witness :
    fetchPagesLoop pagesC8 (1 + 1) 2 [rawC8] 1 = some ([rawC8], 2)
    ∧ fetchAllLibrariesFromAPI pagesC8 none true 3 =
      some ⟨[⟨"lib1", "Lib One", false, some "Live"⟩],
            some (some [⟨"lib1", "Lib One", false, some "Live"⟩]), 2⟩ := by
  constructor
  · exact spec2proof_C8_partial_discovery.1 pagesC8 1 2 [rawC8] 1 (by decide)
  · exact (spec2proof_C8_partial_discovery.2 pagesC8 none 3 [rawC8] 2
      (by decide)).trans (by decide)

/-! ### Claim C9 -/

/-- C9: a non-forced discovery over an existing, parsing cache returns the
cached directory with zero network calls and an unchanged cache file; hence
after any first non-forced discovery, every further non-forced discovery
returns the identical directory with zero additional network calls. -/
theorem spec2proof_C9_cache_idempotent :
    (∀ (env : Nat → PageResult) (dir : List TenantRecord) (cache : CacheState)
      (fuel : Nat), cacheParsed cache = some dir →
      fetchAllLibrariesFromAPI env cache false fuel = some ⟨dir, cache, 0⟩)
    ∧ (∀ (env : Nat → PageResult) (cache : CacheState) (fuel fuel2 : Nat)
        (out : DiscoverOut),
        fetchAllLibrariesFromAPI env cache false fuel = some out →
        fetchAllLibrariesFromAPI env out.cache false fuel2 =
          some ⟨out.dir, out.cache, 0⟩) := by
  constructor
  · exact fun env dir cache fuel h => fetchAll_cache_hit env dir cache fuel h
  · intro env cache fuel fuel2 out h
    unfold fetchAllLibrariesFromAPI at h
    rw [if_pos rfl] at h
    cases hc : cacheParsed cache with
    | some dir =>
      rw [hc] at h
      obtain rfl := (Option.some_inj.mp h).symm
      exact fetchAll_cache_hit env dir cache fuel2 hc
    | none =>
      rw [hc] at h
      unfold discoverNetwork at h
      cases hl : fetchPagesLoop env fuel 1 [] 0 with
      | none =>
        rw [hl] at h
        exact absurd h (by simp)
      | some p =>
        rw [hl] at h
        obtain rfl := (Option.some_inj.mp h).symm
        exact fetchAll_cache_hit env _ _ fuel2 rfl

/-- The page source of the C9 witness: a fixed one-page index. -/
def pagesC9 : Nat → PageResult := fun p =>
  if p = 1 then .ok [⟨some "lib1", none, some "Lib One", false, some "Live"⟩] none
  else .err

/-- The record of the C9 witness's cached directory. -/
def recC9 : TenantRecord := ⟨"lib1", "Lib One", false, some "Live"⟩

/-- C9 witness: with a cache parsing to one record, a non-forced discovery
returns exactly that directory, leaves the cache unchanged, and makes zero
network calls. -/
theorem spec2proof_C9_witness :
    fetchAllLibrariesFromAPI pagesC9 (some (some [recC9])) false 5 =
      some ⟨[recC9], some (some [recC9]), 0⟩ :=
  spec2proof_C9_cache_idempotent.1 pagesC9 [recC9] (some (some [recC9])) 5 (by decide)

/-! ### Closed-form lemmas for pass logs and hits -/

/-- A 429-free pass logs exactly one event per considered tenant, in order. -/
theorem passEvents_map_tenants (env : SearchEnv) (p : Nat) :
    ∀ (ts : List String) (c : Nat),
      (passEvents env p ts c).map (fun e => e.2.1) = ts := by
  intro ts
  induction ts with
  | nil => intro c; rfl
  | cons t ts' ih =>
    intro c
    cases hlim : env.limiter c <;> simp [passEvents, hlim, ih (c + 1)]

/-- The event at position i of a 429-free pass: a limiter rejection at that
consume call logs a skip (no request), a grant logs the issued fetch. -/
theorem passEvents_get (env : SearchEnv) (p : Nat) :
    ∀ (ts : List String) (c i : Nat) (t : String), ts[i]? = some t →
      (passEvents env p ts c)[i]? =
        some (p, t, match env.limiter (c + i) with
          | some ms => TenantEvent.limiterSkip ms
          | none => TenantEvent.fetched (env.fetch p t)) := by
  intro ts
  induction ts with
  | nil =>
    intro c i t h
    simp at h
  | cons x ts' ih =>
    intro c i t h
    cases i with
    | zero =>
      rw [List.getElem?_cons_zero, Option.some_inj] at h
      subst h
      cases hlim : env.limiter c <;> simp [passEvents, hlim, Nat.add_zero]
    | succ j =>
      rw [List.getElem?_cons_succ] at h
      have hr := ih (c + 1) j t h
      have hc : c + 1 + j = c + (j + 1) := by omega
      rw [hc] at hr
      simp only [passEvents, List.getElem?_cons_succ]
      exact hr

/-- Every item of a granted, successful tenant at position i of the pass
appears among the pass's accumulated hits. -/
theorem mem_passHits (env : SearchEnv) (p : Nat) :
    ∀ (ts : List String) (c i : Nat) (t : String) (items : List Book) (b : Book),
      ts[i]? = some t → env.limiter (c + i) = none →
      env.fetch p t = .ok items → b ∈ items →
      bookToHit t b ∈ passHits env p ts c := by
  intro ts
  induction ts with
  | nil =>
    intro c i t items b h
    simp at h
  | cons x ts' ih =>
    intro c i t items b h hlim hf hb
    cases i with
    | zero =>
      rw [List.getElem?_cons_zero, Option.some_inj] at h
      subst h
      rw [Nat.add_zero] at hlim
      simp only [passHits, tenantContribution, hlim, hf]
      exact List.mem_append_left _ (List.mem_map.mpr ⟨b, hb, rfl⟩)
    | succ j =>
      rw [List.getElem?_cons_succ] at h
      have hc : c + (j + 1) = c + 1 + j := by omega
      rw [hc] at hlim
      simp only [passHits]
      exact List.mem_append_right _ (ih (c + 1) j t items b h hlim hf hb)

/-- A pass all of whose tenants contribute nothing accumulates no hit. -/
theorem passHits_eq_nil (env : SearchEnv) (p : Nat) :
    ∀ (ts : List String) (c : Nat),
      (∀ i t, ts[i]? = some t → tenantContribution env p t (c + i) = []) →
      passHits env p ts c = [] := by
  intro ts
  induction ts with
  | nil => intro c _; rfl
  | cons x ts' ih =>
    intro c h
    have h0 := h 0 x (by simp)
    rw [Nat.add_zero] at h0
    have hrest : ∀ i t, ts'[i]? = some t →
        tenantContribution env p t (c + 1 + i) = [] := by
      intro i t hit
      have hh := h (i + 1) t (by simpa using hit)
      have hc : c + (i + 1) = c + 1 + i := by omega
      rwa [hc] at hh
    simp [passHits, h0, ih (c + 1) hrest]

/-- A hit of the accumulated list sits in its own group of the aggregated
result. -/
theorem mem_lookupGroup_aggregate (hits : List SearchHit) (h : SearchHit)
    (hmem : h ∈ hits) : h ∈ lookupGroup (aggregate hits) (groupKey h) := by
  unfold aggregate
  rw [lookupGroup_groupResults]
  exact List.mem_filter.mpr ⟨(mem_sortHits h hits).mpr hmem, by simp⟩

/-! ### Claim C1 -/

/-- Tenant a's book on the first pass of the C1 scenario. -/
def bookC1a : Book :=
  ⟨"TitleA", "AuthA", "ebook", true, some 3, some 5, some 0, some 0, "idA"⟩

/-- Tenant c's book in the C1 scenario. -/
def bookC1c : Book :=
  ⟨"TitleC", "AuthC", "ebook", false, some 0, some 2, some 4, some 14, "idC"⟩

/-- The hit tenant a contributes on pass 0 of the C1 scenario. -/
def hitC1a : SearchHit := bookToHit "a" bookC1a

/-- The hit tenant c contributes on pass 1 of the C1 scenario. -/
def hitC1c : SearchHit := bookToHit "c" bookC1c

/-- The C1 scenario: tenants a, b, c resolved from the detailed dataset; on
pass 0 tenant a returns one hit and tenant b answers 429 with Retry-After 1;
on the restarted pass tenant a's request fails, b returns nothing, c returns
one hit.  The limiter always grants. -/
def envC1 : SearchEnv :=
  { fs := { libCache := none
            detailed := some (some [("a", some "Live"), ("b", some "Live"),
              ("c", some "Live")])
            simple := none
            legacy := none }
    pages := fun _ => .err
    discoverFuel := 1
    favoriteLibraries := []
    limiter := fun _ => none
    fetch := fun p t =>
      if p = 0 then
        if t = "a" then .ok [bookC1a]
        else if t = "b" then .http429 (some "1")
        else .ok [bookC1c]
      else
        if t = "a" then .netErr
        else if t = "b" then .ok []
        else .ok [bookC1c] }

/-- The full event log of the C1 scenario run. -/
def eventsC1 : List (Nat × String × TenantEvent) :=
  [(0, "a", .fetched (.ok [bookC1a])),
   (0, "b", .fetched (.http429 (some "1"))),
   (1, "a", .fetched .netErr),
   (1, "b", .fetched (.ok [])),
   (1, "c", .fetched (.ok [bookC1c]))]

/-- C1 (code bug): on tenant b's 429 the run sleeps the Retry-After hint
(1000 ms) and then re-invokes the whole search (line 407 of the source):
the event log records tenants a, b and c all being visited again on pass 1
after the 429, and tenant a's hit — already collected before the 429 — is
absent from the final GroupedResult, because the restarted invocation starts
from an empty accumulator and tenant a fails there.  This contradicts the
claimed per-tenant handling (continue with the remaining tenants of the same
pass, preserving accumulated hits, never re-running the pass) and the
source's own comment at line 405, "Retry this library". -/
theorem spec2proof_C1_restart_bug :
    searchLibrariesRun envC1 none true 2 =
      some ⟨.ok [(groupKey hitC1c, [hitC1c])], eventsC1, [1000]⟩
    ∧ ((eventsC1.filter fun e => e.1 == 1).map fun e => e.2.1) = ["a", "b", "c"]
    ∧ (∀ g ∈ [(groupKey hitC1c, [hitC1c])], hitC1a ∉ g.2) :=
  ⟨by decide, by decide, by decide⟩

/-! ### Claim C2 -/

/-- The C2 scenario: tenants a and b; the limiter grants call 0 and rejects
call 1 with 1500 ms before next; every issued request returns no items. -/
def envC2 : SearchEnv :=
  { fs := { libCache := none
            detailed := some (some [("a", some "Live"), ("b", some "Live")])
            simple := none
            legacy := none }
    pages := fun _ => .err
    discoverFuel := 1
    favoriteLibraries := []
    limiter := fun i => if i = 1 then some 1500 else none
    fetch := fun _ _ => .ok [] }

/-- C2 counterexample: tenant b is in the resolved, considered tenant list,
but the local rate limiter's rejection at b's iteration makes the executor
sleep `msBeforeNext` and `continue` to the next tenant: b's search request is
never issued, refuting that acquiring a permit never denies the caller and
that no tenant is skipped without its request being issued. -/
theorem spec2proof_C2_counterexample :
    loadLibrarySlugs envC2.fs true = ["a", "b"]
    ∧ consideredTenants envC2 none ["a", "b"] = ["a", "b"]
    ∧ searchLibrariesRun envC2 none true 1 =
        some ⟨.ok [], [(0, "a", .fetched (.ok [])), (0, "b", .limiterSkip 1500)],
          [1500]⟩
    ∧ issuedTenants
        [(0, "a", TenantEvent.fetched (.ok [])),
         (0, "b", TenantEvent.limiterSkip 1500)] = ["a"] :=
  ⟨by decide, by decide, by decide, by decide⟩

/-- C2 (amended): every tenant of the considered list gets exactly one loop
iteration with one `consume` call; when the permit is granted the tenant's
search request is issued, but when the local limiter denies the permit the
executor sleeps `msBeforeNext` and skips that tenant — its request is never
issued — and continues with the next tenant. -/
theorem spec2proof_C2_amended (env : SearchEnv) (maxLibs : Option Nat)
    (dynamic : Bool) (slugs : List String) (cache' : CacheState)
    (hres : resolveSlugs env env.fs.libCache dynamic = some (slugs, cache'))
    (hne : ¬ slugs = [])
    (h429 : ∀ t h, env.fetch 0 t ≠ .http429 h) :
    searchLibrariesRun env maxLibs dynamic 1 =
      some ⟨.ok (aggregate (passHits env 0 (consideredTenants env maxLibs slugs) 0)),
            passEvents env 0 (consideredTenants env maxLibs slugs) 0,
            passSleeps env 0 (consideredTenants env maxLibs slugs) 0⟩
    ∧ (passEvents env 0 (consideredTenants env maxLibs slugs) 0).map (fun e => e.2.1) =
        consideredTenants env maxLibs slugs
    ∧ ∀ i t, (consideredTenants env maxLibs slugs)[i]? = some t →
        (passEvents env 0 (consideredTenants env maxLibs slugs) 0)[i]? =
          some (0, t, match env.limiter i with
            | some ms => TenantEvent.limiterSkip ms
            | none => TenantEvent.fetched (env.fetch 0 t)) := by
  refine ⟨searchRun_single_pass env maxLibs dynamic slugs cache' hres hne h429,
    passEvents_map_tenants env 0 _ 0, ?_⟩
  intro i t hit
  have hr := passEvents_get env 0 (consideredTenants env maxLibs slugs) 0 i t hit
  rwa [Nat.zero_add] at hr

/-- C2 amended witness: the amended statement instantiated at the concrete
C2 environment, where the limiter rejects call 1. -/
theorem spec2proof_C2_amended_witness :
    (passEvents envC2 0 (consideredTenants envC2 none ["a", "b"]) 0).map
        (fun e => e.2.1) =
      consideredTenants envC2 none ["a", "b"] :=
  (spec2proof_C2_amended envC2 none true ["a", "b"] none (by decide) (by decide)
    (fun t h hcon => FetchOutcome.noConfusion hcon)).2.1

/-! ### Claim C3 -/

/-- The C3 counterexample scenario: the cache file parses to an empty list,
the detailed dataset holds the single Live tenant x, and tenant x answers
429; the original invocation runs with dynamic = false. -/
def envC3x : SearchEnv :=
  { fs := { libCache := some (some [])
            detailed := some (some [("x", some "Live")])
            simple := none
            legacy := none }
    pages := fun _ => .err
    discoverFuel := 1
    favoriteLibraries := []
    limiter := fun _ => none
    fetch := fun _ _ => .http429 (some "1") }

/-- C3 counterexample: the invocation's fallback chain resolves the nonempty
slug list [x] (dynamic = false, so no bootstrap), yet the run raises
NoTenantsAvailable: tenant x's 429 restarts the whole search with default
options (dynamic = true), the restart resolves slugs through the cache — an
empty list — and its non-forced bootstrap is a cache hit returning the same
empty list, so the restarted invocation throws.  This refutes the "only if"
direction of the claim. -/
theorem spec2proof_C3_counterexample :
    loadLibrarySlugs envC3x.fs false = ["x"]
    ∧ searchLibrariesRun envC3x none false 2 =
        some ⟨.error noLibsMsg, [(0, "x", .fetched (.http429 (some "1")))], [1000]⟩ :=
  ⟨by decide, by decide⟩

/-- C3 (amended): in runs whose first pass sees no 429 (so no restart
occurs), the search raises NoTenantsAvailable exactly when the resolved slug
list — after the fallback chain and, when dynamic, one non-forced discovery
bootstrap — is empty; and when tenants exist but every tenant contributes
zero hits, the run returns the empty GroupedResult as a success,
distinguishable from the error. -/
theorem spec2proof_C3_amended (env : SearchEnv) (maxLibs : Option Nat)
    (dynamic : Bool) (slugs : List String) (cache' : CacheState)
    (hres : resolveSlugs env env.fs.libCache dynamic = some (slugs, cache'))
    (h429 : ∀ t h, env.fetch 0 t ≠ .http429 h) :
    (∃ out, searchLibrariesRun env maxLibs dynamic 1 = some out)
    ∧ (∀ out, searchLibrariesRun env maxLibs dynamic 1 = some out →
        (out.result = .error noLibsMsg ↔ slugs = []))
    ∧ ((∀ i t, (consideredTenants env maxLibs slugs)[i]? = some t →
          tenantContribution env 0 t i = []) → ¬ slugs = [] →
        searchLibrariesRun env maxLibs dynamic 1 =
          some ⟨.ok [], passEvents env 0 (consideredTenants env maxLibs slugs) 0,
                passSleeps env 0 (consideredTenants env maxLibs slugs) 0⟩) := by
  by_cases hs : slugs = []
  · subst hs
    have hrun : searchLibrariesRun env maxLibs dynamic 1 =
        some ⟨.error noLibsMsg, [], []⟩ := by
      unfold searchLibrariesRun searchGo
      simp [hres]
    refine ⟨⟨_, hrun⟩, ?_, ?_⟩
    · intro out hout
      rw [hrun, Option.some_inj] at hout
      subst hout
      simp
    · intro _ hne
      exact absurd rfl hne
  · have hrun := searchRun_single_pass env maxLibs dynamic slugs cache' hres hs h429
    refine ⟨⟨_, hrun⟩, ?_, ?_⟩
    · intro out hout
      rw [hrun, Option.some_inj] at hout
      subst hout
      simp [hs]
    · intro hall _
      rw [hrun]
      have hnil : passHits env 0 (consideredTenants env maxLibs slugs) 0 = [] := by
        apply passHits_eq_nil
        intro i t hit
        rw [Nat.zero_add]
        exact hall i t hit
      rw [hnil]
      rfl

/-- The C3 amended witness scenario: no cache, no fallback dataset, and a
paginated source whose first page is empty, so the bootstrap discovers an
empty directory. -/
def envC3w : SearchEnv :=
  { fs := { libCache := none
            detailed := none
            simple := none
            legacy := none }
    pages := fun _ => .ok [] none
    discoverFuel := 1
    favoriteLibraries := []
    limiter := fun _ => none
    fetch := fun _ _ => .ok [] }

/-- C3 amended witness: the amended statement instantiated at the concrete
empty-directory environment (the run exists and, by the theorem, errors). -/
theorem spec2proof_C3_amended_witness :
    ∃ out, searchLibrariesRun envC3w none true 1 = some out :=
  (spec2proof_C3_amended envC3w none true [] (some (some [])) (by decide)
    (fun t h hcon => FetchOutcome.noConfusion hcon)).1

/-! ### Claim C4 -/

/-- C4: in a 429-free pass, a tenant whose request fails (network error or
unparsable body, the `netErr` outcome) contributes zero hits, the pass
continues (the run completes in that single pass with the closed-form hits),
and every hit of every other granted, successful tenant — before or after
the failing one — is present in its group of the final GroupedResult. -/
theorem spec2proof_C4_isolation (env : SearchEnv) (maxLibs : Option Nat)
    (dynamic : Bool) (slugs : List String) (cache' : CacheState)
    (hres : resolveSlugs env env.fs.libCache dynamic = some (slugs, cache'))
    (hne : ¬ slugs = [])
    (h429 : ∀ t h, env.fetch 0 t ≠ .http429 h) :
    searchLibrariesRun env maxLibs dynamic 1 =
      some ⟨.ok (aggregate (passHits env 0 (consideredTenants env maxLibs slugs) 0)),
            passEvents env 0 (consideredTenants env maxLibs slugs) 0,
            passSleeps env 0 (consideredTenants env maxLibs slugs) 0⟩
    ∧ (∀ i t, (consideredTenants env maxLibs slugs)[i]? = some t →
        env.fetch 0 t = .netErr → tenantContribution env 0 t i = [])
    ∧ (∀ i t items b, (consideredTenants env maxLibs slugs)[i]? = some t →
        env.limiter i = none → env.fetch 0 t = .ok items → b ∈ items →
        bookToHit t b ∈
          lookupGroup
            (aggregate (passHits env 0 (consideredTenants env maxLibs slugs) 0))
            (groupKey (bookToHit t b))) := by
  refine ⟨searchRun_single_pass env maxLibs dynamic slugs cache' hres hne h429,
    ?_, ?_⟩
  · intro i t _ hf
    cases hlim : env.limiter i with
    | some ms => simp only [tenantContribution, hlim]
    | none => simp only [tenantContribution, hlim, hf]
  · intro i t items b hit hlim hf hb
    have hlim' : env.limiter (0 + i) = none := by rwa [Nat.zero_add]
    exact mem_lookupGroup_aggregate _ _
      (mem_passHits env 0 (consideredTenants env maxLibs slugs) 0 i t items b
        hit hlim' hf hb)

/-- Tenant a's book in the C4 witness scenario. -/
def bookC4a : Book :=
  ⟨"T4", "A4", "ebook", true, some 1, some 1, some 0, some 0, "id4a"⟩

/-- Tenant c's book in the C4 witness scenario. -/
def bookC4c : Book :=
  ⟨"T4", "A4", "audiobook", false, some 0, some 1, some 2, some 7, "id4c"⟩

/-- The C4 witness scenario: tenants a, b, c; b's request fails with a
network error, a and c each return one item; the limiter always grants. -/
def envC4 : SearchEnv :=
  { fs := { libCache := none
            detailed := some (some [("a", some "Live"), ("b", some "Live"),
              ("c", some "Live")])
            simple := none
            legacy := none }
    pages := fun _ => .err
    discoverFuel := 1
    favoriteLibraries := []
    limiter := fun _ => none
    fetch := fun _ t =>
      if t = "b" then .netErr
      else if t = "a" then .ok [bookC4a]
      else .ok [bookC4c] }

/-- No fetch outcome of the C4 witness environment is a 429. -/
theorem envC4_no429 : ∀ t h, envC4.fetch 0 t ≠ FetchOutcome.http429 h := by
  intro t h
  show (if t = "b" then FetchOutcome.netErr
    else if t = "a" then FetchOutcome.ok [bookC4a]
    else FetchOutcome.ok [bookC4c]) ≠ _
  split
  · exact fun hcon => FetchOutcome.noConfusion hcon
  · split
    · exact fun hcon => FetchOutcome.noConfusion hcon
    · exact fun hcon => FetchOutcome.noConfusion hcon

/-- C4 witness: with tenant b (between a and c) failing, the hits of tenants
a and c are both present in their groups of the final result. -/
theorem spec2proof_C4_witness :
    bookToHit "a" bookC4a ∈
      lookupGroup
        (aggregate (passHits envC4 0 (consideredTenants envC4 none ["a", "b", "c"]) 0))
        (groupKey (bookToHit "a" bookC4a))
    ∧ bookToHit "c" bookC4c ∈
      lookupGroup
        (aggregate (passHits envC4 0 (consideredTenants envC4 none ["a", "b", "c"]) 0))
        (groupKey (bookToHit "c" bookC4c)) :=
  ⟨(spec2proof_C4_isolation envC4 none true ["a", "b", "c"] none (by decide)
      (by decide) envC4_no429).2.2 0 "a" [bookC4a] bookC4a (by decide) rfl
      (by decide) (by decide),
   (spec2proof_C4_isolation envC4 none true ["a", "b", "c"] none (by decide)
      (by decide) envC4_no429).2.2 2 "c" [bookC4c] bookC4c (by decide) rfl
      (by decide) (by decide)⟩

end LibSearch
